import Mathlib

/-!
Shallow embedding of the RifasCAIv2 ticket reservation and payment
settlement engine.

Sources embedded here:
* backend `routes/payments.js` — the `create-and-pay`, `confirm` and
  `reject` routes (each runs inside a mongoose transaction: on a thrown
  error the transaction is aborted, so the pre-state is restored);
* backend `server.js` — the cron job releasing expired reservations;
* backend `routes/raffle.js` — the raffle `create`, `update` and `delete`
  routes;
* backend `models/Ticket.js`, `models/Payment.js`, `models/Raffle.js` —
  the document schemas.

Modelling conventions: MongoDB collections are Lean lists in natural
(insertion) order; `findOne`/`findById` is `List.find?`; `updateMany`
maps a guarded update over the list; `findOneAndUpdate` rewrites the
first matching element; timestamps are naturals (milliseconds);
document object ids are naturals.  A route handler is a function
`DB → ... → DB × Except String α`: on the error branch the returned
state is the input state, which is exactly what `abortTransaction`
produces.  Socket events and file uploads are not part of the state.
-/

inductive TStatus where
  | available
  | reserved
  | sold
deriving DecidableEq, Repr

inductive PStatus where
  | Pending
  | Confirmed
  | Rejected
deriving DecidableEq, Repr

/-- A document of the `tickets` collection (models/Ticket.js). -/
structure Ticket where
  raffleId : Nat
  ticketNumber : Nat
  status : TStatus
  reservedAt : Option Nat
  userId : Option Nat
deriving DecidableEq, Repr

/-- A document of the `payments` collection (models/Payment.js); only the
fields the engine reads are kept. `selectedNumbers` is immutable in the
schema and the engine never rewrites it. -/
structure Payment where
  id : Nat
  userId : Nat
  raffle : Nat
  email : String
  selectedNumbers : List Nat
  status : PStatus
deriving DecidableEq, Repr

/-- A document of the `raffles` collection (models/Raffle.js). The counters
are JS numbers that the code freely decrements, so they are integers. -/
structure Raffle where
  id : Nat
  totalTickets : Nat
  soldTickets : Int
  reservedTickets : Int
  active : Bool
deriving DecidableEq, Repr

/-- The database state: the collections the engine touches.  `userEmails`
stands for the `users` collection, of which the engine only ever queries
existence by email. -/
structure DB where
  raffles : List Raffle
  tickets : List Ticket
  payments : List Payment
  userEmails : List String
deriving DecidableEq, Repr

/-- The body of a `create-and-pay` request, after JSON parsing.  The two
ids stand for the fresh MongoDB `_id`s of the user and payment documents
created by the route. -/
structure ReserveReq where
  email : String
  numbers : List Nat
  newUserId : Nat
  newPaymentId : Nat
deriving DecidableEq, Repr

/-- `Raffle.findOne({ active: true })`. -/
def findActive (rs : List Raffle) : Option Raffle :=
  rs.find? (fun r => r.active)

/-- `Payment.findById(pid)`. -/
def findPayment (ps : List Payment) (pid : Nat) : Option Payment :=
  ps.find? (fun p => p.id == pid)

/-- One iteration of the reservation loop:
`Ticket.findOneAndUpdate({ ticketNumber, status: 'available', raffleId },
{ $set: { status: 'reserved', reservedAt: now, userId } })`.
Rewrites the first matching document; `none` when no document matches. -/
def claimTicket (ts : List Ticket) (rid n uid now : Nat) : Option (List Ticket) :=
  match ts with
  | [] => none
  | t :: rest =>
    if t.ticketNumber == n && t.status == TStatus.available && t.raffleId == rid then
      some ({ t with status := TStatus.reserved, reservedAt := some now,
                     userId := some uid } :: rest)
    else
      (claimTicket rest rid n uid now).map (fun ts2 => t :: ts2)

/-- The `for (const ticketNumber of tickets)` loop of `create-and-pay`:
claims each number in order against the working state and collects the
numbers whose claim found no available document. -/
def reserveLoop (ts : List Ticket) (rid uid now : Nat) :
    List Nat → List Ticket × List Nat
  | [] => (ts, [])
  | n :: rest =>
    match claimTicket ts rid n uid now with
    | some ts2 => reserveLoop ts2 rid uid now rest
    | none =>
      let (ts3, u) := reserveLoop ts rid uid now rest
      (ts3, n :: u)

/-- The error message thrown when some claims failed. -/
def unavailableMsg (u : List Nat) : String :=
  "Tickets not available: " ++ String.intercalate ", " (u.map toString)

/-- POST `/api/payments/create-and-pay` (routes/payments.js).  The whole
handler body runs in one transaction; every thrown error aborts it, so on
the error branch the input state is returned unchanged. -/
def createAndPay (db : DB) (req : ReserveReq) (now : Nat) :
    DB × Except String Nat :=
  if db.userEmails.contains req.email then
    (db, Except.error "User with this email already exists")
  else
    match findActive db.raffles with
    | none => (db, Except.error "No active raffle found")
    | some raffle =>
      let (ts, unavailable) := reserveLoop db.tickets raffle.id req.newUserId now req.numbers
      if unavailable.isEmpty then
        let payment : Payment :=
          { id := req.newPaymentId, userId := req.newUserId, raffle := raffle.id,
            email := req.email, selectedNumbers := req.numbers,
            status := PStatus.Pending }
        let rs := db.raffles.map (fun r =>
          if r.id == raffle.id then
            { r with reservedTickets := r.reservedTickets + req.numbers.length }
          else r)
        ({ raffles := rs, tickets := ts,
           payments := db.payments ++ [payment],
           userEmails := db.userEmails ++ [req.email] },
         Except.ok req.newPaymentId)
      else
        (db, Except.error (unavailableMsg unavailable))

/-- POST `/api/payments/:id/confirm` (routes/payments.js).  Note the
`Ticket.updateMany` filter is only `ticketNumber ∈ selectedNumbers`
and `status = 'reserved'` — there is no raffle and no owner condition.
The `soldAt` field set by the route is absent from the Ticket schema and
is dropped by mongoose, so it does not appear in the state. -/
def confirmPayment (db : DB) (pid : Nat) : DB × Except String Unit :=
  match findPayment db.payments pid with
  | none => (db, Except.error "Payment not found")
  | some p =>
    if p.status ≠ PStatus.Pending then
      (db, Except.error "Payment is not in pending status")
    else
      let ps := db.payments.map (fun q =>
        if q.id == pid then { q with status := PStatus.Confirmed } else q)
      let ts := db.tickets.map (fun t =>
        if p.selectedNumbers.contains t.ticketNumber && t.status == TStatus.reserved then
          { t with status := TStatus.sold }
        else t)
      let rs := db.raffles.map (fun r =>
        if r.id == p.raffle then
          { r with soldTickets := r.soldTickets + p.selectedNumbers.length,
                   reservedTickets := r.reservedTickets - p.selectedNumbers.length }
        else r)
      ({ db with payments := ps, tickets := ts, raffles := rs }, Except.ok ())

/-- POST `/api/payments/:id/reject` (routes/payments.js).  Same filter
shape as confirm; the raffle counter is floored at zero via
`Math.max(0, reservedTickets - selectedNumbers.length)`. -/
def rejectPayment (db : DB) (pid : Nat) : DB × Except String Unit :=
  match findPayment db.payments pid with
  | none => (db, Except.error "Payment not found")
  | some p =>
    if p.status ≠ PStatus.Pending then
      (db, Except.error "Payment is not in pending status")
    else
      let ps := db.payments.map (fun q =>
        if q.id == pid then { q with status := PStatus.Rejected } else q)
      let ts := db.tickets.map (fun t =>
        if p.selectedNumbers.contains t.ticketNumber && t.status == TStatus.reserved then
          { t with status := TStatus.available, userId := none, reservedAt := none }
        else t)
      let rs := db.raffles.map (fun r =>
        if r.id == p.raffle then
          { r with reservedTickets := max 0 (r.reservedTickets - p.selectedNumbers.length) }
        else r)
      ({ db with payments := ps, tickets := ts, raffles := rs }, Except.ok ())

/-- The reservation TTL used by the cron job: 24 hours in milliseconds. -/
def ttlMs : Nat := 24 * 60 * 60 * 1000

/-- Does a ticket match the cron job's
`Ticket.find({ status: 'reserved', reservedAt: { $lt: cutoff } })`
query at time `now` (cutoff = now − 24h)?  A null `reservedAt` never
satisfies a `$lt` date comparison. -/
def isExpired (t : Ticket) (now : Nat) : Bool :=
  t.status == TStatus.reserved &&
    (match t.reservedAt with
     | some r => decide (r + ttlMs < now)
     | none => false)

/-- The cron job in server.js.  It first finds the expired reservations,
then — crucially — its `Ticket.updateMany` filter is only
`{ ticketNumber: { $in: ticketNumbers } }`: no status, `reservedAt` or
raffle re-check.  It never updates any raffle document. -/
def sweep (db : DB) (now : Nat) : DB :=
  let expired := db.tickets.filter (fun t => isExpired t now)
  if expired.isEmpty then db
  else
    let nums := expired.map (fun t => t.ticketNumber)
    { db with tickets := db.tickets.map (fun t =>
        if nums.contains t.ticketNumber then
          { t with status := TStatus.available, reservedAt := none, userId := none }
        else t) }

/-- A fresh raffle `_id`: MongoDB generates ids distinct from every
existing document's id, modelled as one more than the maximum. -/
def freshRaffleId (db : DB) : Nat :=
  db.raffles.foldr (fun r m => max (r.id + 1) m) 0

/-- POST `/api/raffle/create` (routes/raffle.js): inside one transaction,
`Raffle.updateMany({}, { active: false })`, then the new raffle is saved
with `active: true` and its tickets `1..totalTickets` are bulk-inserted
as available. -/
def createRaffleOp (db : DB) (total : Nat) : DB :=
  let rid := freshRaffleId db
  { db with
    raffles := db.raffles.map (fun r => { r with active := false })
      ++ [{ id := rid, totalTickets := total, soldTickets := 0,
            reservedTickets := 0, active := true }],
    tickets := db.tickets ++ (List.range total).map (fun i =>
      { raffleId := rid, ticketNumber := i + 1, status := TStatus.available,
        reservedAt := none, userId := none }) }

/-- PUT `/api/raffle/:id` (routes/raffle.js), restricted to the `active`
field (the other updatable fields are outside this model).  If the raffle
exists and the update sets `active` truthily, every other raffle is
deactivated first; then the loaded document is assigned and saved. -/
def updateRaffleOp (db : DB) (rid : Nat) (activeUpd : Option Bool) : DB :=
  match db.raffles.find? (fun r => r.id == rid) with
  | none => db
  | some _ =>
    let deact :=
      if activeUpd == some true then
        db.raffles.map (fun r => if r.id == rid then r else { r with active := false })
      else db.raffles
    { db with raffles := deact.map (fun r =>
        if r.id == rid then
          match activeUpd with
          | some b => { r with active := b }
          | none => r
        else r) }

/-- DELETE `/api/raffle/:id` (routes/raffle.js): refused while the raffle
owns sold tickets; otherwise the raffle and its tickets are removed. -/
def deleteRaffleOp (db : DB) (rid : Nat) : DB :=
  match db.raffles.find? (fun r => r.id == rid) with
  | none => db
  | some _ =>
    if db.tickets.any (fun t => t.raffleId == rid && t.status == TStatus.sold) then db
    else
      { db with
        raffles := db.raffles.filter (fun r => !(r.id == rid)),
        tickets := db.tickets.filter (fun t => !(t.raffleId == rid)) }

/-- One operation of the system: the four engine steps plus the three
admin raffle routes. -/
inductive Op where
  | reserve (req : ReserveReq) (now : Nat)
  | confirm (pid : Nat)
  | reject (pid : Nat)
  | sweepAt (now : Nat)
  | createRaffle (total : Nat)
  | updateRaffle (rid : Nat) (activeUpd : Option Bool)
  | deleteRaffle (rid : Nat)
deriving DecidableEq, Repr

/-- The state reached after one operation (for the fallible routes, the
post-state whether the call succeeded or errored). -/
def applyOp (db : DB) : Op → DB
  | Op.reserve req now => (createAndPay db req now).1
  | Op.confirm pid => (confirmPayment db pid).1
  | Op.reject pid => (rejectPayment db pid).1
  | Op.sweepAt now => sweep db now
  | Op.createRaffle total => createRaffleOp db total
  | Op.updateRaffle rid upd => updateRaffleOp db rid upd
  | Op.deleteRaffle rid => deleteRaffleOp db rid

/-- Run a sequence of operations. -/
def runOps (db : DB) : List Op → DB
  | [] => db
  | op :: ops => runOps (applyOp db op) ops

/-- The four engine steps named by the spec's concurrency model. -/
def Op.isEngine : Op → Bool
  | Op.reserve _ _ => true
  | Op.confirm _ => true
  | Op.reject _ => true
  | Op.sweepAt _ => true
  | _ => false

/-- Is the ticket `(rid, n)` currently recorded as sold? -/
def isSoldAt (db : DB) (rid n : Nat) : Bool :=
  db.tickets.any (fun t =>
    t.raffleId == rid && t.ticketNumber == n && t.status == TStatus.sold)

/-- Number of steps along a trace at which ticket `(rid, n)` transitions
into the sold status. -/
def sellEvents (db : DB) (ops : List Op) (rid n : Nat) : Nat :=
  match ops with
  | [] => 0
  | op :: rest =>
    let db2 := applyOp db op
    (if !isSoldAt db rid n && isSoldAt db2 rid n then 1 else 0)
      + sellEvents db2 rest rid n

/-- Count of a raffle's tickets in a given status. -/
def countStatus (db : DB) (rid : Nat) (s : TStatus) : Nat :=
  db.tickets.countP (fun t => t.raffleId == rid && t.status == s)

/-- The counter-consistency invariant of spec §4.4 and §8. -/
def CountersOk (db : DB) : Prop :=
  ∀ r ∈ db.raffles,
    r.reservedTickets = (countStatus db r.id TStatus.reserved : Int) ∧
    r.soldTickets = (countStatus db r.id TStatus.sold : Int)

/-- No available ticket numbered `n` exists in raffle `rid`. -/
def NoAvail (ts : List Ticket) (rid n : Nat) : Prop :=
  ∀ t ∈ ts, ¬(t.raffleId = rid ∧ t.ticketNumber = n ∧ t.status = TStatus.available)

/-- All ticket numbers across the whole ticket collection are pairwise
distinct (true of every single-raffle state). -/
def UniqNums (db : DB) : Prop :=
  (db.tickets.map (fun t => t.ticketNumber)).Nodup

/-- At most one raffle is active. -/
def AtMostOneActive (db : DB) : Prop :=
  db.raffles.countP (fun r => r.active) ≤ 1

/-- Raffle ids are pairwise distinct (MongoDB `_id` uniqueness). -/
def NodupRaffleIds (db : DB) : Prop :=
  (db.raffles.map (fun r => r.id)).Nodup

/-- The scope condition under which confirm/reject move the counters by
exactly the amount they adjust them by: every selected number is (still)
a reserved ticket of the payment's raffle — their count is the full
`selectedNumbers.length` — and no ticket outside that raffle is reserved
under one of the selected numbers. -/
def SelScope (db : DB) (p : Payment) : Prop :=
  db.tickets.countP (fun t =>
      (p.selectedNumbers.contains t.ticketNumber && t.status == TStatus.reserved)
        && t.raffleId == p.raffle) = p.selectedNumbers.length ∧
  ∀ t ∈ db.tickets, t.status = TStatus.reserved →
    t.ticketNumber ∈ p.selectedNumbers → t.raffleId = p.raffle

/-- The empty initial database. -/
def dbInit : DB := { raffles := [], tickets := [], payments := [], userEmails := [] }

/-- A single active raffle with ticket 1 available and ticket 2 reserved
by user 9; counters consistent. -/
def dbTwoTickets : DB :=
  { raffles := [{ id := 0, totalTickets := 2, soldTickets := 0,
                  reservedTickets := 1, active := true }],
    tickets :=
      [ { raffleId := 0, ticketNumber := 1, status := TStatus.available,
          reservedAt := none, userId := none },
        { raffleId := 0, ticketNumber := 2, status := TStatus.reserved,
          reservedAt := some 0, userId := some 9 } ],
    payments := [], userEmails := [] }

/-- A single active raffle whose only ticket was reserved at time 1000. -/
def dbExpired : DB :=
  { raffles := [{ id := 0, totalTickets := 1, soldTickets := 0,
                  reservedTickets := 1, active := true }],
    tickets := [{ raffleId := 0, ticketNumber := 1, status := TStatus.reserved,
                  reservedAt := some 1000, userId := some 7 }],
    payments := [], userEmails := [] }

/-- Two raffles sharing ticket number 1: raffle 0's copy is an expired
reservation, raffle 1's copy is sold. -/
def dbSweepSold : DB :=
  { raffles :=
      [ { id := 0, totalTickets := 1, soldTickets := 0, reservedTickets := 1,
          active := false },
        { id := 1, totalTickets := 1, soldTickets := 1, reservedTickets := 0,
          active := true } ],
    tickets :=
      [ { raffleId := 0, ticketNumber := 1, status := TStatus.reserved,
          reservedAt := some 0, userId := some 1 },
        { raffleId := 1, ticketNumber := 1, status := TStatus.sold,
          reservedAt := some 5, userId := some 2 } ],
    payments := [], userEmails := [] }

/-- Two raffles sharing ticket number 1, both copies reserved by different
users; the pending payment 1 owns number 1 in raffle 0 only. -/
def dbCrossConfirm : DB :=
  { raffles :=
      [ { id := 0, totalTickets := 1, soldTickets := 0, reservedTickets := 1,
          active := false },
        { id := 1, totalTickets := 1, soldTickets := 0, reservedTickets := 1,
          active := true } ],
    tickets :=
      [ { raffleId := 0, ticketNumber := 1, status := TStatus.reserved,
          reservedAt := some 0, userId := some 1 },
        { raffleId := 1, ticketNumber := 1, status := TStatus.reserved,
          reservedAt := some 0, userId := some 2 } ],
    payments := [{ id := 1, userId := 1, raffle := 0, email := "a",
                   selectedNumbers := [1], status := PStatus.Pending }],
    userEmails := ["a"] }

/-- A single raffle with one reserved ticket owned by pending payment 1. -/
def dbPending : DB :=
  { raffles := [{ id := 0, totalTickets := 1, soldTickets := 0,
                  reservedTickets := 1, active := true }],
    tickets := [{ raffleId := 0, ticketNumber := 1, status := TStatus.reserved,
                  reservedAt := some 0, userId := some 7 }],
    payments := [{ id := 1, userId := 7, raffle := 0, email := "a",
                   selectedNumbers := [1], status := PStatus.Pending }],
    userEmails := ["a"] }

/-- A run of the system from the empty database in which ticket 1 of
raffle 0 is sold twice: it is sold via payment 1, a second raffle is
created whose own ticket 1 expires, the sweep's unguarded `updateMany`
resets both tickets numbered 1 — including the sold one — to available,
raffle 0 is re-activated, and its ticket 1 is reserved and sold again
via payment 3. -/
def opsDoubleSell : List Op :=
  [ Op.createRaffle 1,
    Op.reserve { email := "a", numbers := [1], newUserId := 1, newPaymentId := 1 } 0,
    Op.confirm 1,
    Op.createRaffle 1,
    Op.reserve { email := "b", numbers := [1], newUserId := 2, newPaymentId := 2 } 10,
    Op.sweepAt (10 + ttlMs + 1),
    Op.updateRaffle 0 (some true),
    Op.reserve { email := "c", numbers := [1], newUserId := 3, newPaymentId := 3 } (10 + ttlMs + 2),
    Op.confirm 3 ]

instance instDecEqExcept {E A : Type} [DecidableEq E] [DecidableEq A] :
    DecidableEq (Except E A) := fun a b =>
  match a, b with
  | Except.error x, Except.error y =>
    if h : x = y then isTrue (by rw [h]) else isFalse (fun hc => by cases hc; exact h rfl)
  | Except.error x, Except.ok y => isFalse (fun hc => by cases hc)
  | Except.ok x, Except.error y => isFalse (fun hc => by cases hc)
  | Except.ok x, Except.ok y =>
    if h : x = y then isTrue (by rw [h]) else isFalse (fun hc => by cases hc; exact h rfl)

instance instDecSelScope (db : DB) (p : Payment) : Decidable (SelScope db p) := by
  unfold SelScope; infer_instance

instance instDecCountersOk (db : DB) : Decidable (CountersOk db) := by
  unfold CountersOk; infer_instance

instance instDecNoAvail (ts : List Ticket) (rid n : Nat) : Decidable (NoAvail ts rid n) := by
  unfold NoAvail; infer_instance

instance instDecUniqNums (db : DB) : Decidable (UniqNums db) := by
  unfold UniqNums; infer_instance

instance instDecAtMostOneActive (db : DB) : Decidable (AtMostOneActive db) := by
  unfold AtMostOneActive; infer_instance

instance instDecNodupRaffleIds (db : DB) : Decidable (NodupRaffleIds db) := by
  unfold NodupRaffleIds; infer_instance

/-- The sweep job never writes to the raffles collection. -/
theorem sweep_raffles (db : DB) (now : Nat) : (sweep db now).raffles = db.raffles := by
  cases hc : (db.tickets.filter (fun t => isExpired t now)).isEmpty <;> simp [sweep, hc]

/-- The sweep job never writes to the payments collection. -/
theorem sweep_payments (db : DB) (now : Nat) : (sweep db now).payments = db.payments := by
  cases hc : (db.tickets.filter (fun t => isExpired t now)).isEmpty <;> simp [sweep, hc]

theorem findPayment_map_setStatus (ps : List Payment) (pid : Nat) (s : PStatus) (p : Payment)
    (h : findPayment ps pid = some p) :
    findPayment (ps.map (fun q => if q.id == pid then { q with status := s } else q)) pid
      = some { p with status := s } := by
  induction ps with
  | nil => simp [findPayment] at h
  | cons q rest ih =>
    unfold findPayment at h ih ⊢
    by_cases hq : q.id = pid
    · rw [List.find?_cons_of_pos _ (by simp [hq])] at h
      obtain rfl := Option.some.inj h
      rw [List.map_cons, List.find?_cons_of_pos _ (by simp [hq])]
      simp [hq]
    · rw [List.find?_cons_of_neg _ (by simp [hq])] at h
      rw [List.map_cons, List.find?_cons_of_neg _ (by simp [hq])]
      exact ih h

/-- C10: a create-and-pay request whose email already belongs to a user
account fails with the existing-user error and changes nothing: the
returned state is the input state, so no ticket, user, payment or
counter moved.  The check runs before any write, and the transaction is
aborted on the throw. -/
theorem claim_C10 (db : DB) (req : ReserveReq) (now : Nat)
    (h : db.userEmails.contains req.email = true) :
    createAndPay db req now = (db, Except.error "User with this email already exists") := by
  unfold createAndPay
  rw [if_pos h]

theorem claim_C10_witness :
    dbPending.userEmails.contains "a" = true ∧
    createAndPay dbPending { email := "a", numbers := [1], newUserId := 8, newPaymentId := 9 } 0
      = (dbPending, Except.error "User with this email already exists") :=
  ⟨by decide,
   claim_C10 dbPending { email := "a", numbers := [1], newUserId := 8, newPaymentId := 9 } 0
     (by decide)⟩

/-- C7: after a successful Confirm, both Reject and a repeated Confirm on
the same payment fail with the payment-not-pending error and return the
post-confirm state untouched; symmetrically after a successful Reject.
The guard throws before any write and the transaction aborts. -/
theorem claim_C7 (db db1 : DB) (pid : Nat) :
    (confirmPayment db pid = (db1, Except.ok ()) →
      rejectPayment db1 pid = (db1, Except.error "Payment is not in pending status") ∧
      confirmPayment db1 pid = (db1, Except.error "Payment is not in pending status")) ∧
    (rejectPayment db pid = (db1, Except.ok ()) →
      confirmPayment db1 pid = (db1, Except.error "Payment is not in pending status") ∧
      rejectPayment db1 pid = (db1, Except.error "Payment is not in pending status")) := by
  constructor
  · intro h
    obtain rfl : (confirmPayment db pid).1 = db1 := congrArg Prod.fst h
    cases hfp : findPayment db.payments pid with
    | none =>
      rw [show confirmPayment db pid = (db, Except.error "Payment not found") from by
        simp [confirmPayment, hfp]] at h
      simp at h
    | some p =>
      by_cases hp : p.status = PStatus.Pending
      · have hfind := findPayment_map_setStatus db.payments pid PStatus.Confirmed p hfp
        simp only [beq_iff_eq] at hfind
        refine ⟨?_, ?_⟩ <;>
          simp [rejectPayment, confirmPayment, hfp, hp, hfind]
      · rw [show confirmPayment db pid = (db, Except.error "Payment is not in pending status") from by
          simp [confirmPayment, hfp, hp]] at h
        simp at h
  · intro h
    obtain rfl : (rejectPayment db pid).1 = db1 := congrArg Prod.fst h
    cases hfp : findPayment db.payments pid with
    | none =>
      rw [show rejectPayment db pid = (db, Except.error "Payment not found") from by
        simp [rejectPayment, hfp]] at h
      simp at h
    | some p =>
      by_cases hp : p.status = PStatus.Pending
      · have hfind := findPayment_map_setStatus db.payments pid PStatus.Rejected p hfp
        simp only [beq_iff_eq] at hfind
        refine ⟨?_, ?_⟩ <;>
          simp [rejectPayment, confirmPayment, hfp, hp, hfind]
      · rw [show rejectPayment db pid = (db, Except.error "Payment is not in pending status") from by
          simp [rejectPayment, hfp, hp]] at h
        simp at h

theorem claim_C7_witness :
    rejectPayment (confirmPayment dbPending 1).1 1
      = ((confirmPayment dbPending 1).1, Except.error "Payment is not in pending status") ∧
    confirmPayment (confirmPayment dbPending 1).1 1
      = ((confirmPayment dbPending 1).1, Except.error "Payment is not in pending status") :=
  (claim_C7 dbPending (confirmPayment dbPending 1).1 1).1 (by rfl)

theorem claimTicket_none_of_noAvail (ts : List Ticket) (rid n uid now : Nat)
    (h : NoAvail ts rid n) : claimTicket ts rid n uid now = none := by
  induction ts with
  | nil => rfl
  | cons t rest ih =>
    have hni := h t (List.mem_cons_self t rest)
    have ih2 := ih (fun t2 ht2 => h t2 (List.mem_cons_of_mem _ ht2))
    unfold claimTicket
    cases h1 : t.ticketNumber == n <;> cases h2 : t.status == TStatus.available <;>
      cases h3 : t.raffleId == rid <;> simp_all

theorem claimTicket_noAvail_pres (ts ts2 : List Ticket) (rid m uid now rid2 n : Nat)
    (h : claimTicket ts rid m uid now = some ts2)
    (hn : NoAvail ts rid2 n) : NoAvail ts2 rid2 n := by
  induction ts generalizing ts2 with
  | nil => simp [claimTicket] at h
  | cons t rest ih =>
    unfold claimTicket at h
    by_cases hc : (t.ticketNumber == m && t.status == TStatus.available && t.raffleId == rid) = true
    · rw [if_pos hc] at h
      obtain rfl := Option.some.inj h
      intro t2 ht2
      rcases List.mem_cons.mp ht2 with h1 | h1
      · subst h1; simp
      · exact hn t2 (List.mem_cons_of_mem _ h1)
    · rw [if_neg hc] at h
      rcases Option.map_eq_some'.mp h with ⟨ts3, h3, rfl⟩
      intro t2 ht2
      rcases List.mem_cons.mp ht2 with h1 | h1
      · subst h1; exact hn t2 (List.mem_cons_self _ _)
      · exact ih ts3 h3 (fun u hu => hn u (List.mem_cons_of_mem _ hu)) t2 h1

theorem reserveLoop_unavail_mem (nums : List Nat) (ts : List Ticket) (rid uid now n : Nat)
    (hn : n ∈ nums) (hna : NoAvail ts rid n) :
    n ∈ (reserveLoop ts rid uid now nums).2 := by
  induction nums generalizing ts with
  | nil => simp at hn
  | cons m rest ih =>
    unfold reserveLoop
    cases hclaim : claimTicket ts rid m uid now with
    | none =>
      rcases List.mem_cons.mp hn with h1 | h1
      · subst h1; simp
      · simp only []
        exact List.mem_cons_of_mem _ (ih ts h1 hna)
    | some ts2 =>
      rcases List.mem_cons.mp hn with h1 | h1
      · subst h1
        rw [claimTicket_none_of_noAvail ts rid n uid now hna] at hclaim
        exact absurd hclaim (by simp)
      · exact ih ts2 h1 (claimTicket_noAvail_pres ts ts2 rid m uid now rid n hclaim hna)

theorem createAndPay_unavailable (db : DB) (req : ReserveReq) (now : Nat) (raffle : Raffle)
    (n : Nat)
    (hr : findActive db.raffles = some raffle)
    (hu : db.userEmails.contains req.email = false)
    (hn : n ∈ req.numbers)
    (hna : NoAvail db.tickets raffle.id n) :
    n ∈ (reserveLoop db.tickets raffle.id req.newUserId now req.numbers).2 ∧
    createAndPay db req now
      = (db, Except.error (unavailableMsg
          (reserveLoop db.tickets raffle.id req.newUserId now req.numbers).2)) := by
  have hmem := reserveLoop_unavail_mem req.numbers db.tickets raffle.id req.newUserId now n hn hna
  have hu2 : req.email ∉ db.userEmails := by simpa using hu
  refine ⟨hmem, ?_⟩
  simp [createAndPay, hr, hu2, List.ne_nil_of_mem hmem]

/-- C2: if some requested number has no available ticket in the active
raffle, the whole reservation is abandoned: the call returns the input
state (so every number claimed during the attempt is available again and
no Payment or User document survives — the transaction was aborted) and
the error names the unavailable numbers, among them the failing one. -/
theorem claim_C2 (db : DB) (req : ReserveReq) (now : Nat) (raffle : Raffle) (n : Nat)
    (hr : findActive db.raffles = some raffle)
    (hu : db.userEmails.contains req.email = false)
    (hn : n ∈ req.numbers)
    (hna : NoAvail db.tickets raffle.id n) :
    ∃ u, n ∈ u ∧
      createAndPay db req now = (db, Except.error (unavailableMsg u)) := by
  obtain ⟨h1, h2⟩ := createAndPay_unavailable db req now raffle n hr hu hn hna
  exact ⟨_, h1, h2⟩

theorem claim_C2_witness :
    ∃ u, 2 ∈ u ∧
      createAndPay dbTwoTickets { email := "x", numbers := [1, 2], newUserId := 5, newPaymentId := 6 } 0
        = (dbTwoTickets, Except.error (unavailableMsg u)) :=
  claim_C2 dbTwoTickets { email := "x", numbers := [1, 2], newUserId := 5, newPaymentId := 6 } 0
    { id := 0, totalTickets := 2, soldTickets := 0, reservedTickets := 1, active := true } 2
    (by decide) (by decide) (by decide) (by decide)

/-- C8 (amended): a requested number above `totalTickets` has no ticket
document at all, so its conditional claim fails and the request is
rejected through the same `Tickets not available` error as a contended
number — there is no distinct invalid-ticket-number error in the code. -/
theorem claim_C8_amended (db : DB) (req : ReserveReq) (now : Nat) (raffle : Raffle) (n : Nat)
    (hr : findActive db.raffles = some raffle)
    (hu : db.userEmails.contains req.email = false)
    (hn : n ∈ req.numbers)
    (hrange : raffle.totalTickets < n)
    (hbound : ∀ t ∈ db.tickets, t.raffleId = raffle.id → t.ticketNumber ≤ raffle.totalTickets) :
    ∃ u, n ∈ u ∧
      createAndPay db req now = (db, Except.error (unavailableMsg u)) := by
  have hna : NoAvail db.tickets raffle.id n := by
    intro t ht hconj
    obtain ⟨h1, h2, h3⟩ := hconj
    have := hbound t ht h1
    omega
  obtain ⟨h1, h2⟩ := createAndPay_unavailable db req now raffle n hr hu hn hna
  exact ⟨_, h1, h2⟩

theorem claim_C8_witness :
    ∃ u, 3 ∈ u ∧
      createAndPay dbTwoTickets { email := "x", numbers := [3], newUserId := 5, newPaymentId := 6 } 0
        = (dbTwoTickets, Except.error (unavailableMsg u)) :=
  claim_C8_amended dbTwoTickets { email := "x", numbers := [3], newUserId := 5, newPaymentId := 6 } 0
    { id := 0, totalTickets := 2, soldTickets := 0, reservedTickets := 1, active := true } 3
    (by decide) (by decide) (by decide) (by decide) (by decide)

/-- C8 counterexample: in a raffle with `totalTickets = 2`, requesting the
out-of-range number 3 yields exactly the `Tickets not available` error —
not a distinct invalid-ticket-number request error as the claim states. -/
theorem claim_C8_counterexample :
    createAndPay dbTwoTickets { email := "x", numbers := [3], newUserId := 5, newPaymentId := 6 } 0
      = (dbTwoTickets, Except.error "Tickets not available: 3") := by
  decide

/-- C6 (amended): with every reservation in the state taken at `t0` and a
24-hour TTL, a sweep at `t0`+23h changes nothing; a sweep at `t0`+25h
resets every reserved ticket to available (clearing owner and timestamp)
but — unlike the claim — leaves every raffle document, and hence every
`reservedTickets` counter, exactly as it was: the cron job never updates
raffles. -/
theorem claim_C6_amended (db : DB) (t0 : Nat)
    (hall : ∀ t ∈ db.tickets, t.status = TStatus.reserved → t.reservedAt = some t0) :
    sweep db (t0 + 23 * 3600 * 1000) = db ∧
    (∀ t ∈ db.tickets, t.status = TStatus.reserved →
      { t with status := TStatus.available, reservedAt := none, userId := none }
        ∈ (sweep db (t0 + 25 * 3600 * 1000)).tickets) ∧
    (sweep db (t0 + 25 * 3600 * 1000)).raffles = db.raffles := by
  refine ⟨?_, ?_, sweep_raffles db _⟩
  · have hemp : db.tickets.filter (fun t => isExpired t (t0 + 23 * 3600 * 1000)) = [] := by
      rw [List.filter_eq_nil_iff]
      intro t ht
      by_cases hs : t.status = TStatus.reserved
      · have hra := hall t ht hs
        simp [isExpired, hs, hra, ttlMs]
      · simp [isExpired, hs]
    simp [sweep, hemp]
  · intro t ht hs
    have hexp : isExpired t (t0 + 25 * 3600 * 1000) = true := by
      have hra := hall t ht hs
      simp [isExpired, hs, hra, ttlMs]
    have hmemf : t ∈ db.tickets.filter (fun u => isExpired u (t0 + 25 * 3600 * 1000)) :=
      List.mem_filter.mpr ⟨ht, hexp⟩
    have hne : (db.tickets.filter (fun u => isExpired u (t0 + 25 * 3600 * 1000))).isEmpty = false := by
      rcases hf : db.tickets.filter (fun u => isExpired u (t0 + 25 * 3600 * 1000)) with _ | ⟨a, l⟩
      · rw [hf] at hmemf; simp at hmemf
      · rfl
    have hnum : ((db.tickets.filter (fun u => isExpired u (t0 + 25 * 3600 * 1000))).map
        (fun u => u.ticketNumber)).contains t.ticketNumber = true := by
      exact List.elem_eq_true_of_mem (List.mem_map_of_mem _ hmemf)
    unfold sweep
    rw [if_neg (by simp [hne])]
    refine List.mem_map.mpr ⟨t, ht, ?_⟩
    rw [if_pos hnum]

theorem claim_C6_witness :
    sweep dbExpired (1000 + 23 * 3600 * 1000) = dbExpired ∧
    (∀ t ∈ dbExpired.tickets, t.status = TStatus.reserved →
      { t with status := TStatus.available, reservedAt := none, userId := none }
        ∈ (sweep dbExpired (1000 + 25 * 3600 * 1000)).tickets) ∧
    (sweep dbExpired (1000 + 25 * 3600 * 1000)).raffles = dbExpired.raffles :=
  claim_C6_amended dbExpired 1000 (by decide)

/-- C6 counterexample: ticket 1 of `dbExpired` was reserved at 1000; the
sweep at 1000+25h releases it to available, yet the raffle document is
untouched: `reservedTickets` is still 1, not decremented by the number of
tickets released as the claim states. -/
theorem claim_C6_counterexample :
    (sweep dbExpired (1000 + 25 * 3600 * 1000)).tickets
      = [{ raffleId := 0, ticketNumber := 1, status := TStatus.available,
           reservedAt := none, userId := none }] ∧
    (sweep dbExpired (1000 + 25 * 3600 * 1000)).raffles = dbExpired.raffles ∧
    dbExpired.raffles.map (fun r => r.reservedTickets) = [1] := by
  decide

/-- C5 (amended): one sweep run resets to available every ticket whose
`ticketNumber` equals that of some expired reservation — regardless of
that ticket's own status, raffle or `reservedAt` — because the release
`updateMany` filters on ticket number alone.  The true half of the claim
survives: a ticket sharing its number with no expired reservation is not
modified. -/
theorem claim_C5_amended (db : DB) (now : Nat) :
    (∀ t ∈ db.tickets,
      (∀ t2 ∈ db.tickets, isExpired t2 now = true → t2.ticketNumber ≠ t.ticketNumber) →
      t ∈ (sweep db now).tickets) ∧
    (∀ t ∈ db.tickets,
      (∃ t2 ∈ db.tickets, isExpired t2 now = true ∧ t2.ticketNumber = t.ticketNumber) →
      { t with status := TStatus.available, reservedAt := none, userId := none }
        ∈ (sweep db now).tickets) := by
  constructor
  · intro t ht hno
    cases hemp : (db.tickets.filter (fun u => isExpired u now)).isEmpty with
    | true =>
      unfold sweep
      rw [if_pos hemp]
      exact ht
    | false =>
      have hc : ((db.tickets.filter (fun u => isExpired u now)).map
          (fun u => u.ticketNumber)).contains t.ticketNumber = false := by
        cases hb : ((db.tickets.filter (fun u => isExpired u now)).map
            (fun u => u.ticketNumber)).contains t.ticketNumber with
        | false => rfl
        | true =>
          have hmem := List.mem_of_elem_eq_true hb
          obtain ⟨t2, ht2f, heq⟩ := List.mem_map.mp hmem
          obtain ⟨ht2, hexp⟩ := List.mem_filter.mp ht2f
          exact absurd heq (hno t2 ht2 hexp)
      unfold sweep
      rw [if_neg (by simp [hemp])]
      refine List.mem_map.mpr ⟨t, ht, ?_⟩
      rw [if_neg (by simpa using hc)]
  · intro t ht hex
    obtain ⟨t2, ht2, hexp, heq⟩ := hex
    have hmemf : t2 ∈ db.tickets.filter (fun u => isExpired u now) :=
      List.mem_filter.mpr ⟨ht2, hexp⟩
    have hne : (db.tickets.filter (fun u => isExpired u now)).isEmpty = false := by
      rcases hf : db.tickets.filter (fun u => isExpired u now) with _ | ⟨a, l⟩
      · rw [hf] at hmemf; simp at hmemf
      · rfl
    have hnum : ((db.tickets.filter (fun u => isExpired u now)).map
        (fun u => u.ticketNumber)).contains t.ticketNumber = true := by
      rw [← heq]
      exact List.elem_eq_true_of_mem (List.mem_map_of_mem _ hmemf)
    unfold sweep
    rw [if_neg (by simp [hne])]
    refine List.mem_map.mpr ⟨t, ht, ?_⟩
    rw [if_pos hnum]

theorem claim_C5_witness :
    { raffleId := 1, ticketNumber := 1, status := TStatus.available,
      reservedAt := none, userId := none }
      ∈ ((sweep dbSweepSold (ttlMs + 1)).tickets : List Ticket) :=
  (claim_C5_amended dbSweepSold (ttlMs + 1)).2
    { raffleId := 1, ticketNumber := 1, status := TStatus.sold,
      reservedAt := some 5, userId := some 2 }
    (by decide)
    ⟨{ raffleId := 0, ticketNumber := 1, status := TStatus.reserved,
       reservedAt := some 0, userId := some 1 }, by decide, by decide, rfl⟩

/-- C5 counterexample: in `dbSweepSold` no raffle-1 ticket is expired and
raffle 1's ticket 1 is sold, yet after the sweep (triggered by raffle 0's
expired reservation of the same number) that sold ticket is no longer
sold — refuting that a sold ticket of a different raffle is left
unmodified. -/
theorem claim_C5_counterexample :
    (∀ t ∈ dbSweepSold.tickets, t.raffleId = 1 → isExpired t (ttlMs + 1) = false) ∧
    isSoldAt dbSweepSold 1 1 = true ∧
    isSoldAt (sweep dbSweepSold (ttlMs + 1)) 1 1 = false := by
  decide

/-- C4 (amended): Confirm on a pending payment marks as sold exactly the
tickets whose number is among the payment's `selectedNumbers` and whose
status is currently reserved — in whatever raffle and under whatever
owner they are: the `updateMany` filter carries no raffle and no owner
condition.  Tickets failing the number-or-reserved test are untouched,
and the payment itself becomes Confirmed. -/
theorem claim_C4_amended (db : DB) (pid : Nat) (p : Payment)
    (hfp : findPayment db.payments pid = some p)
    (hp : p.status = PStatus.Pending) :
    (∀ t ∈ db.tickets, t.status = TStatus.reserved → t.ticketNumber ∈ p.selectedNumbers →
      { t with status := TStatus.sold } ∈ (confirmPayment db pid).1.tickets) ∧
    (∀ t ∈ db.tickets, (t.status ≠ TStatus.reserved ∨ t.ticketNumber ∉ p.selectedNumbers) →
      t ∈ (confirmPayment db pid).1.tickets) ∧
    findPayment (confirmPayment db pid).1.payments pid
      = some { p with status := PStatus.Confirmed } := by
  have htix : (confirmPayment db pid).1.tickets
      = db.tickets.map (fun t =>
          if p.selectedNumbers.contains t.ticketNumber && t.status == TStatus.reserved then
            { t with status := TStatus.sold }
          else t) := by
    simp [confirmPayment, hfp, hp]
  have hpay : (confirmPayment db pid).1.payments
      = db.payments.map (fun q =>
          if q.id == pid then { q with status := PStatus.Confirmed } else q) := by
    simp [confirmPayment, hfp, hp]
  refine ⟨?_, ?_, ?_⟩
  · intro t ht hs hmem
    rw [htix]
    refine List.mem_map.mpr ⟨t, ht, ?_⟩
    rw [if_pos (by simp [hs, hmem])]
  · intro t ht hcond
    rw [htix]
    refine List.mem_map.mpr ⟨t, ht, ?_⟩
    rw [if_neg ?_]
    rcases hcond with h1 | h1
    · simp [h1]
    · simp [h1]
  · rw [hpay]
    exact findPayment_map_setStatus db.payments pid PStatus.Confirmed p hfp

theorem claim_C4_witness :
    { raffleId := 0, ticketNumber := 1, status := TStatus.sold,
      reservedAt := some 0, userId := some 1 }
      ∈ ((confirmPayment dbCrossConfirm 1).1.tickets : List Ticket) :=
  ((claim_C4_amended dbCrossConfirm 1
      { id := 1, userId := 1, raffle := 0, email := "a",
        selectedNumbers := [1], status := PStatus.Pending }
      (by decide) rfl).1
    { raffleId := 0, ticketNumber := 1, status := TStatus.reserved,
      reservedAt := some 0, userId := some 1 }
    (by decide) rfl (by decide))

/-- C4 counterexample: payment 1 belongs to raffle 0 and buyer 1, yet its
Confirm sells ticket 1 of raffle 1, reserved by buyer 2 — refuting that
tickets of a different raffle or owner are left unchanged. -/
theorem claim_C4_counterexample :
    (findPayment dbCrossConfirm.payments 1).map (fun p => (p.raffle, p.userId)) = some (0, 1) ∧
    (∃ t ∈ dbCrossConfirm.tickets,
      t.raffleId = 1 ∧ t.userId = some 2 ∧ t.status = TStatus.reserved) ∧
    isSoldAt (confirmPayment dbCrossConfirm 1).1 1 1 = true := by
  decide

theorem countP_map_ite {α : Type} (l : List α) (c : α → Bool) (g : α → α) (q : α → Bool) :
    (l.map (fun t => if c t then g t else t)).countP q
      = l.countP (fun t => c t && q (g t)) + l.countP (fun t => !c t && q t) := by
  induction l with
  | nil => rfl
  | cons a l ih =>
    rw [List.map_cons, List.countP_cons, List.countP_cons, List.countP_cons, ih]
    cases hca : c a <;> cases hq1 : q (g a) <;> cases hq2 : q a <;>
      simp [hca, hq1, hq2] <;> omega

theorem countP_and_split {α : Type} (l : List α) (c q : α → Bool) :
    l.countP q = l.countP (fun t => c t && q t) + l.countP (fun t => !c t && q t) := by
  induction l with
  | nil => rfl
  | cons a l ih =>
    rw [List.countP_cons, List.countP_cons, List.countP_cons, ih]
    cases hca : c a <;> cases hq : q a <;> simp [hca, hq] <;> omega

theorem sel_update_counts (tix : List Ticket) (sel : List Nat) (R : Nat)
    (g : Ticket → Ticket) (ns : TStatus)
    (hg1 : ∀ t, (g t).raffleId = t.raffleId)
    (hg2 : ∀ t, (g t).status = ns)
    (hns : ns ≠ TStatus.reserved)
    (hcount : tix.countP (fun t =>
        (sel.contains t.ticketNumber && t.status == TStatus.reserved) && t.raffleId == R)
      = sel.length)
    (hscope : ∀ t ∈ tix, t.status = TStatus.reserved → t.ticketNumber ∈ sel → t.raffleId = R)
    (rid : Nat) :
    ((tix.map (fun t =>
        if sel.contains t.ticketNumber && t.status == TStatus.reserved then g t else t)).countP
          (fun t => t.raffleId == rid && t.status == TStatus.reserved)
        + (if rid = R then sel.length else 0)
      = tix.countP (fun t => t.raffleId == rid && t.status == TStatus.reserved)) ∧
    ((tix.map (fun t =>
        if sel.contains t.ticketNumber && t.status == TStatus.reserved then g t else t)).countP
          (fun t => t.raffleId == rid && t.status == TStatus.sold)
      = tix.countP (fun t => t.raffleId == rid && t.status == TStatus.sold)
        + (if ns = TStatus.sold ∧ rid = R then sel.length else 0)) := by
  have hcsel : tix.countP (fun t =>
      (sel.contains t.ticketNumber && t.status == TStatus.reserved) && t.raffleId == rid)
      = (if rid = R then sel.length else 0) := by
    by_cases hrid : rid = R
    · subst hrid
      simp only [if_pos rfl]
      exact hcount
    · rw [if_neg hrid]
      refine List.countP_eq_zero.mpr (fun t ht => ?_)
      simp only [Bool.and_eq_true, beq_iff_eq, not_and]
      rintro ⟨hcon, hres⟩ hr2
      exact hrid ((hr2 ▸ hscope t ht hres (List.mem_of_elem_eq_true hcon)).symm ▸ rfl)
  constructor
  · rw [countP_map_ite tix _ g]
    have hz : tix.countP (fun t =>
        (sel.contains t.ticketNumber && t.status == TStatus.reserved)
          && ((g t).raffleId == rid && (g t).status == TStatus.reserved)) = 0 := by
      refine List.countP_eq_zero.mpr (fun t ht => ?_)
      simp [hg2 t, hns]
    rw [hz]
    have hsplit := countP_and_split tix
      (fun t => sel.contains t.ticketNumber && t.status == TStatus.reserved)
      (fun t => t.raffleId == rid && t.status == TStatus.reserved)
    have hfirst : tix.countP (fun t =>
        (sel.contains t.ticketNumber && t.status == TStatus.reserved)
          && (t.raffleId == rid && t.status == TStatus.reserved))
        = (if rid = R then sel.length else 0) := by
      rw [← hcsel]
      refine List.countP_congr (fun t ht => ?_)
      cases h1 : sel.contains t.ticketNumber <;> cases h2 : t.status == TStatus.reserved <;>
        cases h3 : t.raffleId == rid <;> simp [h1, h2, h3]
    rw [hsplit, hfirst]
    omega
  · rw [countP_map_ite tix _ g]
    have hfirst : tix.countP (fun t =>
        (sel.contains t.ticketNumber && t.status == TStatus.reserved)
          && ((g t).raffleId == rid && (g t).status == TStatus.sold))
        = (if ns = TStatus.sold ∧ rid = R then sel.length else 0) := by
      by_cases hns2 : ns = TStatus.sold
      · have heq : tix.countP (fun t =>
            (sel.contains t.ticketNumber && t.status == TStatus.reserved)
              && ((g t).raffleId == rid && (g t).status == TStatus.sold))
            = tix.countP (fun t =>
              (sel.contains t.ticketNumber && t.status == TStatus.reserved) && t.raffleId == rid) := by
          refine List.countP_congr (fun t ht => ?_)
          simp [hg1 t, hg2 t, hns2]
        rw [heq, hcsel]
        by_cases hrid : rid = R <;> simp [hrid, hns2]
      · have hz : tix.countP (fun t =>
            (sel.contains t.ticketNumber && t.status == TStatus.reserved)
              && ((g t).raffleId == rid && (g t).status == TStatus.sold)) = 0 := by
          refine List.countP_eq_zero.mpr (fun t ht => ?_)
          simp [hg2 t, hns2]
        rw [hz]
        simp [hns2]
    have hsecond : tix.countP (fun t =>
        !(sel.contains t.ticketNumber && t.status == TStatus.reserved)
          && (t.raffleId == rid && t.status == TStatus.sold))
        = tix.countP (fun t => t.raffleId == rid && t.status == TStatus.sold) := by
      refine List.countP_congr (fun t ht => ?_)
      cases h1 : sel.contains t.ticketNumber <;> cases h2 : t.status == TStatus.sold <;>
        cases h3 : t.raffleId == rid <;> cases h4 : t.status == TStatus.reserved <;>
        simp [h1, h2, h3, h4] <;> simp_all
    rw [hfirst, hsecond]
    omega

theorem confirmPayment_counters (db db2 : DB) (pid : Nat) (p : Payment)
    (hInv : CountersOk db)
    (hfp : findPayment db.payments pid = some p)
    (hsc : SelScope db p)
    (h : confirmPayment db pid = (db2, Except.ok ())) :
    CountersOk db2 := by
  obtain ⟨hcount, hscope⟩ := hsc
  by_cases hp : p.status = PStatus.Pending
  · have hdb2 : (confirmPayment db pid).1 = db2 := congrArg Prod.fst h
    have htix : db2.tickets = db.tickets.map (fun t =>
        if p.selectedNumbers.contains t.ticketNumber && t.status == TStatus.reserved then
          { t with status := TStatus.sold } else t) := by
      rw [← hdb2]; simp [confirmPayment, hfp, hp]
    have hraf : db2.raffles = db.raffles.map (fun r =>
        if r.id == p.raffle then
          { r with soldTickets := r.soldTickets + p.selectedNumbers.length,
                   reservedTickets := r.reservedTickets - p.selectedNumbers.length }
        else r) := by
      rw [← hdb2]; simp [confirmPayment, hfp, hp]
    intro r2 hr2
    rw [hraf] at hr2
    obtain ⟨r, hr, rfl⟩ := List.mem_map.mp hr2
    obtain ⟨hres, hsold⟩ := hInv r hr
    obtain ⟨hcr, hcs⟩ := sel_update_counts db.tickets p.selectedNumbers p.raffle
      (fun t => { t with status := TStatus.sold }) TStatus.sold
      (fun t => rfl) (fun t => rfl) (by simp) hcount hscope r.id
    unfold countStatus at hres hsold ⊢
    rw [htix]
    by_cases hid : r.id = p.raffle
    · rw [if_pos (by simp [hid])]
      rw [if_pos hid] at hcr
      rw [if_pos ⟨rfl, hid⟩] at hcs
      refine ⟨?_, ?_⟩ <;> (dsimp only; omega)
    · rw [if_neg (by simp [hid])]
      rw [if_neg hid] at hcr
      rw [if_neg (by simp [hid])] at hcs
      refine ⟨?_, ?_⟩ <;> (dsimp only; omega)
  · rw [show confirmPayment db pid = (db, Except.error "Payment is not in pending status") from by
      simp [confirmPayment, hfp, hp]] at h
    simp at h

theorem rejectPayment_counters (db db2 : DB) (pid : Nat) (p : Payment)
    (hInv : CountersOk db)
    (hfp : findPayment db.payments pid = some p)
    (hsc : SelScope db p)
    (h : rejectPayment db pid = (db2, Except.ok ())) :
    CountersOk db2 := by
  obtain ⟨hcount, hscope⟩ := hsc
  by_cases hp : p.status = PStatus.Pending
  · have hdb2 : (rejectPayment db pid).1 = db2 := congrArg Prod.fst h
    have htix : db2.tickets = db.tickets.map (fun t =>
        if p.selectedNumbers.contains t.ticketNumber && t.status == TStatus.reserved then
          { t with status := TStatus.available, userId := none, reservedAt := none } else t) := by
      rw [← hdb2]; simp [rejectPayment, hfp, hp]
    have hraf : db2.raffles = db.raffles.map (fun r =>
        if r.id == p.raffle then
          { r with reservedTickets := max 0 (r.reservedTickets - p.selectedNumbers.length) }
        else r) := by
      rw [← hdb2]; simp [rejectPayment, hfp, hp]
    intro r2 hr2
    rw [hraf] at hr2
    obtain ⟨r, hr, rfl⟩ := List.mem_map.mp hr2
    obtain ⟨hres, hsold⟩ := hInv r hr
    obtain ⟨hcr, hcs⟩ := sel_update_counts db.tickets p.selectedNumbers p.raffle
      (fun t => { t with status := TStatus.available, userId := none, reservedAt := none })
      TStatus.available
      (fun t => rfl) (fun t => rfl) (by simp) hcount hscope r.id
    unfold countStatus at hres hsold ⊢
    rw [htix]
    by_cases hid : r.id = p.raffle
    · rw [if_pos (by simp [hid])]
      rw [if_pos hid] at hcr
      rw [if_neg (by simp)] at hcs
      refine ⟨?_, ?_⟩ <;> dsimp only
      · rw [show ((max 0 (r.reservedTickets - (p.selectedNumbers.length : Int))) : Int)
            = r.reservedTickets - (p.selectedNumbers.length : Int) from
          max_eq_right (by omega)]
        omega
      · omega
    · rw [if_neg (by simp [hid])]
      rw [if_neg hid] at hcr
      rw [if_neg (by simp [hid])] at hcs
      refine ⟨?_, ?_⟩ <;> (dsimp only; omega)
  · rw [show rejectPayment db pid = (db, Except.error "Payment is not in pending status") from by
      simp [rejectPayment, hfp, hp]] at h
    simp at h

theorem claimTicket_countP (ts ts2 : List Ticket) (rid n uid now : Nat)
    (h : claimTicket ts rid n uid now = some ts2) (r : Nat) :
    ts2.countP (fun t => t.raffleId == r && t.status == TStatus.reserved)
      = ts.countP (fun t => t.raffleId == r && t.status == TStatus.reserved)
        + (if r = rid then 1 else 0) ∧
    ts2.countP (fun t => t.raffleId == r && t.status == TStatus.sold)
      = ts.countP (fun t => t.raffleId == r && t.status == TStatus.sold) := by
  induction ts generalizing ts2 with
  | nil => simp [claimTicket] at h
  | cons t rest ih =>
    unfold claimTicket at h
    by_cases hc : (t.ticketNumber == n && t.status == TStatus.available && t.raffleId == rid) = true
    · rw [if_pos hc] at h
      obtain rfl := Option.some.inj h
      have hcs : (t.ticketNumber = n ∧ t.status = TStatus.available) ∧ t.raffleId = rid := by
        simpa using hc
      obtain ⟨⟨h1, h2⟩, h3⟩ := hcs
      by_cases hr : r = rid
      · subst hr
        rw [List.countP_cons, List.countP_cons, List.countP_cons, List.countP_cons]
        constructor <;> simp [h2, h3]
      · have hr2 : rid ≠ r := fun he => hr he.symm
        rw [List.countP_cons, List.countP_cons, List.countP_cons, List.countP_cons]
        constructor <;> simp [h2, h3, hr2, hr]
    · rw [if_neg hc] at h
      rcases Option.map_eq_some'.mp h with ⟨ts3, h3, rfl⟩
      obtain ⟨ih1, ih2⟩ := ih ts3 h3
      constructor
      · rw [List.countP_cons, List.countP_cons, ih1]
        omega
      · rw [List.countP_cons, List.countP_cons, ih2]

theorem reserveLoop_countP (nums : List Nat) (ts : List Ticket) (rid uid now : Nat)
    (h : (reserveLoop ts rid uid now nums).2 = []) (r : Nat) :
    (reserveLoop ts rid uid now nums).1.countP
        (fun t => t.raffleId == r && t.status == TStatus.reserved)
      = ts.countP (fun t => t.raffleId == r && t.status == TStatus.reserved)
        + (if r = rid then nums.length else 0) ∧
    (reserveLoop ts rid uid now nums).1.countP
        (fun t => t.raffleId == r && t.status == TStatus.sold)
      = ts.countP (fun t => t.raffleId == r && t.status == TStatus.sold) := by
  induction nums generalizing ts with
  | nil =>
    unfold reserveLoop
    constructor <;> simp
  | cons m rest ih =>
    unfold reserveLoop at h ⊢
    cases hclaim : claimTicket ts rid m uid now with
    | none =>
      rw [hclaim] at h
      simp only [] at h
      exact absurd h (by simp)
    | some ts2 =>
      rw [hclaim] at h
      simp only [] at h ⊢
      obtain ⟨ihr, ihs⟩ := ih ts2 h
      obtain ⟨hcr, hcs⟩ := claimTicket_countP ts ts2 rid m uid now hclaim r
      constructor
      · rw [ihr, hcr]
        by_cases hr : r = rid <;> simp [hr] <;> omega
      · rw [ihs, hcs]

theorem createAndPay_ok_shape (db : DB) (req : ReserveReq) (now : Nat) (db2 : DB) (pid2 : Nat)
    (h : createAndPay db req now = (db2, Except.ok pid2)) :
    ∃ raffle, findActive db.raffles = some raffle ∧
      (reserveLoop db.tickets raffle.id req.newUserId now req.numbers).2 = [] ∧
      db2.tickets = (reserveLoop db.tickets raffle.id req.newUserId now req.numbers).1 ∧
      db2.raffles = db.raffles.map (fun r =>
        if r.id == raffle.id then
          { r with reservedTickets := r.reservedTickets + req.numbers.length }
        else r) := by
  unfold createAndPay at h
  split at h
  · exact absurd (congrArg Prod.snd h) (by simp)
  · split at h
    · exact absurd (congrArg Prod.snd h) (by simp)
    · rename_i raffle hfa
      split at h
      · rename_i ts unavailable heq
        split at h
        · rename_i hemp
          injection h with h1 h2
          subst h1
          refine ⟨raffle, hfa, ?_, ?_, ?_⟩
          · rw [heq]
            exact List.isEmpty_iff.mp hemp
          · rw [heq]
          · rfl
        · exact absurd (congrArg Prod.snd h) (by simp)

theorem createAndPay_counters (db db2 : DB) (req : ReserveReq) (now pid2 : Nat)
    (hInv : CountersOk db)
    (h : createAndPay db req now = (db2, Except.ok pid2)) :
    CountersOk db2 := by
  obtain ⟨raffle, hfa, hloop, htix, hraf⟩ := createAndPay_ok_shape db req now db2 pid2 h
  intro r2 hr2
  rw [hraf] at hr2
  obtain ⟨r, hr, rfl⟩ := List.mem_map.mp hr2
  obtain ⟨hres, hsold⟩ := hInv r hr
  obtain ⟨hcr, hcs⟩ := reserveLoop_countP req.numbers db.tickets raffle.id req.newUserId now hloop r.id
  unfold countStatus at hres hsold ⊢
  rw [htix]
  by_cases hid : r.id = raffle.id
  · rw [if_pos (by simp [hid])]
    rw [if_pos hid] at hcr
    refine ⟨?_, ?_⟩ <;> (dsimp only; omega)
  · rw [if_neg (by simp [hid])]
    rw [if_neg hid] at hcr
    refine ⟨?_, ?_⟩ <;> (dsimp only; omega)

/-- C3 (amended): the counter invariant (reservedTickets = count of
reserved tickets, soldTickets = count of sold tickets, per raffle) is
preserved by every successful reserve; by confirm and reject only under
the scope condition `SelScope` (all selected numbers still reserved in
the payment's raffle, and in no other raffle); and the sweep never
updates any raffle document at all, so it preserves the counters only
when it releases nothing. -/
theorem claim_C3_amended :
    (∀ db db2 req now pid2, CountersOk db →
        createAndPay db req now = (db2, Except.ok pid2) → CountersOk db2) ∧
    (∀ db db2 pid p, CountersOk db → findPayment db.payments pid = some p → SelScope db p →
        confirmPayment db pid = (db2, Except.ok ()) → CountersOk db2) ∧
    (∀ db db2 pid p, CountersOk db → findPayment db.payments pid = some p → SelScope db p →
        rejectPayment db pid = (db2, Except.ok ()) → CountersOk db2) ∧
    (∀ db now, (sweep db now).raffles = db.raffles) :=
  ⟨fun db db2 req now pid2 hInv h => createAndPay_counters db db2 req now pid2 hInv h,
   fun db db2 pid p hInv hfp hsc h => confirmPayment_counters db db2 pid p hInv hfp hsc h,
   fun db db2 pid p hInv hfp hsc h => rejectPayment_counters db db2 pid p hInv hfp hsc h,
   fun db now => sweep_raffles db now⟩

theorem claim_C3_witness :
    CountersOk (createAndPay dbTwoTickets
      { email := "x", numbers := [1], newUserId := 5, newPaymentId := 6 } 0).1 :=
  claim_C3_amended.1 dbTwoTickets
    (createAndPay dbTwoTickets { email := "x", numbers := [1], newUserId := 5, newPaymentId := 6 } 0).1
    { email := "x", numbers := [1], newUserId := 5, newPaymentId := 6 } 0 6
    (by decide) (by rfl)

/-- C3 counterexample: `dbExpired` satisfies the counter invariant, but
after the expiry sweep releases its reserved ticket the invariant is
broken — the sweep resets tickets without decrementing
`reservedTickets`. -/
theorem claim_C3_counterexample :
    CountersOk dbExpired ∧ ¬ CountersOk (sweep dbExpired (1000 + 25 * 3600 * 1000)) := by
  decide

theorem countP_id_le_one (rs : List Raffle) (rid : Nat)
    (h : (rs.map (fun r => r.id)).Nodup) :
    rs.countP (fun r => r.id == rid) ≤ 1 := by
  induction rs with
  | nil => simp
  | cons a l ih =>
    rw [List.map_cons, List.nodup_cons] at h
    obtain ⟨hna, hnd⟩ := h
    rw [List.countP_cons]
    by_cases ha : a.id = rid
    · have hz : l.countP (fun r => r.id == rid) = 0 := by
        refine List.countP_eq_zero.mpr (fun b hb => ?_)
        simp only [beq_iff_eq]
        intro hbid
        exact hna (by rw [ha, ← hbid]; exact List.mem_map_of_mem _ hb)
      simp [hz, ha]
    · have := ih hnd
      simp only [beq_iff_eq, ha]
      simp
      omega

theorem mem_lt_freshRaffleId (rs : List Raffle) :
    ∀ r ∈ rs, r.id < rs.foldr (fun r m => max (r.id + 1) m) 0 := by
  induction rs with
  | nil => simp
  | cons a l ih =>
    intro r hr
    rcases List.mem_cons.mp hr with h1 | h1
    · subst h1
      simp only [List.foldr_cons]
      omega
    · have := ih r h1
      simp only [List.foldr_cons]
      omega

theorem nodup_ids_of_pointwise (rs : List Raffle) (f : Raffle → Raffle)
    (hid : ∀ r, (f r).id = r.id) (h : (rs.map (fun r => r.id)).Nodup) :
    ((rs.map f).map (fun r => r.id)).Nodup := by
  rw [List.map_map]
  have hcomp : ((fun r : Raffle => r.id) ∘ f) = fun r : Raffle => r.id := funext hid
  rw [hcomp]
  exact h

theorem countP_active_map_le (rs : List Raffle) (f : Raffle → Raffle)
    (himp : ∀ r ∈ rs, (f r).active = true → r.active = true) :
    (rs.map f).countP (fun r => r.active) ≤ rs.countP (fun r => r.active) := by
  rw [List.countP_map]
  exact List.countP_mono_left himp

theorem countP_active_map_le_one_of_id (rs : List Raffle) (f : Raffle → Raffle) (rid : Nat)
    (himp : ∀ r ∈ rs, (f r).active = true → (r.id == rid) = true)
    (h : (rs.map (fun r => r.id)).Nodup) :
    (rs.map f).countP (fun r => r.active) ≤ 1 := by
  rw [List.countP_map]
  calc rs.countP ((fun r => r.active) ∘ f)
      ≤ rs.countP (fun r => r.id == rid) := List.countP_mono_left himp
    _ ≤ 1 := countP_id_le_one rs rid h

theorem op_raffles_shape (db : DB) (op : Op) (hop : op.isEngine = true) :
    ∃ f : Raffle → Raffle, (applyOp db op).raffles = db.raffles.map f ∧
      ∀ r, (f r).id = r.id ∧ (f r).active = r.active := by
  cases op with
  | reserve req now =>
    show ∃ f, (createAndPay db req now).1.raffles = _ ∧ _
    unfold createAndPay
    split
    · exact ⟨id, by simp, fun r => ⟨rfl, rfl⟩⟩
    · split
      · exact ⟨id, by simp, fun r => ⟨rfl, rfl⟩⟩
      · split
        · split
          · exact ⟨_, rfl, fun r => ⟨by split <;> rfl, by split <;> rfl⟩⟩
          · exact ⟨id, by simp, fun r => ⟨rfl, rfl⟩⟩
  | confirm pid =>
    show ∃ f, (confirmPayment db pid).1.raffles = _ ∧ _
    unfold confirmPayment
    split
    · exact ⟨id, by simp, fun r => ⟨rfl, rfl⟩⟩
    · split
      · exact ⟨id, by simp, fun r => ⟨rfl, rfl⟩⟩
      · exact ⟨_, rfl, fun r => ⟨by split <;> rfl, by split <;> rfl⟩⟩
  | reject pid =>
    show ∃ f, (rejectPayment db pid).1.raffles = _ ∧ _
    unfold rejectPayment
    split
    · exact ⟨id, by simp, fun r => ⟨rfl, rfl⟩⟩
    · split
      · exact ⟨id, by simp, fun r => ⟨rfl, rfl⟩⟩
      · exact ⟨_, rfl, fun r => ⟨by split <;> rfl, by split <;> rfl⟩⟩
  | sweepAt now =>
    refine ⟨id, ?_, fun r => ⟨rfl, rfl⟩⟩
    show (sweep db now).raffles = _
    simp [sweep_raffles]
  | createRaffle total => simp [Op.isEngine] at hop
  | updateRaffle rid upd => simp [Op.isEngine] at hop
  | deleteRaffle rid => simp [Op.isEngine] at hop

theorem applyOp_raffle_inv (db : DB) (op : Op)
    (h1 : NodupRaffleIds db) (h2 : AtMostOneActive db) :
    NodupRaffleIds (applyOp db op) ∧ AtMostOneActive (applyOp db op) := by
  unfold NodupRaffleIds at h1
  unfold AtMostOneActive at h2
  unfold NodupRaffleIds AtMostOneActive
  by_cases hop : op.isEngine = true
  · obtain ⟨f, hf, hfp⟩ := op_raffles_shape db op hop
    rw [hf]
    refine ⟨nodup_ids_of_pointwise db.raffles f (fun r => (hfp r).1) h1, ?_⟩
    exact le_trans
      (countP_active_map_le db.raffles f (fun r hr ha => by rw [← (hfp r).2]; exact ha)) h2
  · cases op with
    | reserve req now => simp [Op.isEngine] at hop
    | confirm pid => simp [Op.isEngine] at hop
    | reject pid => simp [Op.isEngine] at hop
    | sweepAt now => simp [Op.isEngine] at hop
    | createRaffle total =>
      have happ : (applyOp db (Op.createRaffle total)).raffles
          = db.raffles.map (fun r => { r with active := false })
            ++ [{ id := freshRaffleId db, totalTickets := total, soldTickets := 0,
                  reservedTickets := 0, active := true }] := rfl
      rw [happ]
      constructor
      · rw [List.map_append, List.map_map, List.nodup_append]
        refine ⟨?_, by simp, ?_⟩
        · have hcomp : ((fun r : Raffle => r.id)
              ∘ (fun r : Raffle => { r with active := false })) = fun r : Raffle => r.id :=
            funext (fun r => rfl)
          rw [hcomp]
          exact h1
        · intro x hx
          simp only [List.map_map, List.mem_map, Function.comp] at hx
          obtain ⟨r, hr, rfl⟩ := hx
          simp only [List.map_cons, List.map_nil, List.mem_singleton]
          intro heq
          have := mem_lt_freshRaffleId db.raffles r hr
          unfold freshRaffleId at heq
          omega
      · rw [List.countP_append, List.countP_map]
        have hz : db.raffles.countP
            ((fun r => r.active) ∘ (fun r => { r with active := false })) = 0 :=
          List.countP_eq_zero.mpr (fun r hr => by simp [Function.comp])
        rw [hz]
        simp
    | updateRaffle rid upd =>
      cases hfind : db.raffles.find? (fun r => r.id == rid) with
      | none =>
        have happ : applyOp db (Op.updateRaffle rid upd) = db := by
          show updateRaffleOp db rid upd = db
          simp [updateRaffleOp, hfind]
        rw [happ]
        exact ⟨h1, h2⟩
      | some r0 =>
        cases upd with
        | none =>
          have happ : (applyOp db (Op.updateRaffle rid none)).raffles
              = db.raffles.map (fun r => if (r.id == rid) = true then r else r) := by
            show (updateRaffleOp db rid none).raffles = _
            simp only [updateRaffleOp, hfind]
            rw [if_neg (by simp)]
          rw [happ]
          refine ⟨nodup_ids_of_pointwise db.raffles _ (fun r => by split <;> rfl) h1, ?_⟩
          exact le_trans (countP_active_map_le db.raffles _
            (fun r hr ha => by revert ha; split <;> (intro ha; exact ha))) h2
        | some b =>
          cases b with
          | true =>
            have happ : (applyOp db (Op.updateRaffle rid (some true))).raffles
                = db.raffles.map (fun r =>
                    if (r.id == rid) = true then { r with active := true }
                    else { r with active := false }) := by
              show (updateRaffleOp db rid (some true)).raffles = _
              simp only [updateRaffleOp, hfind]
              rw [if_pos (by simp), List.map_map]
              refine List.map_congr_left (fun r hr => ?_)
              by_cases hc : (r.id == rid) = true <;> simp [Function.comp, hc]
            rw [happ]
            refine ⟨nodup_ids_of_pointwise db.raffles _ (fun r => by split <;> rfl) h1, ?_⟩
            refine countP_active_map_le_one_of_id db.raffles _ rid (fun r hr ha => ?_) h1
            revert ha
            split
            · intro _; assumption
            · intro ha; exact absurd ha (by simp)
          | false =>
            have happ : (applyOp db (Op.updateRaffle rid (some false))).raffles
                = db.raffles.map (fun r =>
                    if (r.id == rid) = true then { r with active := false } else r) := by
              show (updateRaffleOp db rid (some false)).raffles = _
              simp only [updateRaffleOp, hfind]
              rw [if_neg (by simp)]
            rw [happ]
            refine ⟨nodup_ids_of_pointwise db.raffles _ (fun r => by split <;> rfl) h1, ?_⟩
            refine le_trans (countP_active_map_le db.raffles _ (fun r hr ha => ?_)) h2
            revert ha
            split
            · intro ha; exact absurd ha (by simp)
            · intro ha; exact ha
    | deleteRaffle rid =>
      cases hfind : db.raffles.find? (fun r => r.id == rid) with
      | none =>
        have happ : applyOp db (Op.deleteRaffle rid) = db := by
          show deleteRaffleOp db rid = db
          simp [deleteRaffleOp, hfind]
        rw [happ]
        exact ⟨h1, h2⟩
      | some r0 =>
        cases hsold : db.tickets.any (fun t => t.raffleId == rid && t.status == TStatus.sold) with
        | true =>
          have happ : applyOp db (Op.deleteRaffle rid) = db := by
            show deleteRaffleOp db rid = db
            simp [deleteRaffleOp, hfind, hsold]
          rw [happ]
          exact ⟨h1, h2⟩
        | false =>
          have happ : (applyOp db (Op.deleteRaffle rid)).raffles
              = db.raffles.filter (fun r => !(r.id == rid)) := by
            show (deleteRaffleOp db rid).raffles = _
            simp [deleteRaffleOp, hfind, hsold]
          rw [happ]
          constructor
          · exact List.Nodup.sublist (List.Sublist.map _ (List.filter_sublist _)) h1
          · exact le_trans (List.Sublist.countP_le _ (List.filter_sublist _)) h2

/-- C9: starting from any state whose raffle ids are distinct and in which
at most one raffle is active (the empty initial state in particular),
every state reachable through any sequence of system operations still has
at most one active raffle: raffle creation deactivates every raffle in the
same transaction before saving the new one active, activating a raffle via
update deactivates every other raffle first, and no other operation
changes an `active` flag. -/
theorem claim_C9 (db : DB) (ops : List Op)
    (h1 : NodupRaffleIds db) (h2 : AtMostOneActive db) :
    AtMostOneActive (runOps db ops) := by
  induction ops generalizing db with
  | nil => exact h2
  | cons op rest ih =>
    obtain ⟨g1, g2⟩ := applyOp_raffle_inv db op h1 h2
    exact ih (applyOp db op) g1 g2

theorem claim_C9_witness :
    AtMostOneActive (runOps dbInit
      [Op.createRaffle 2, Op.createRaffle 3, Op.updateRaffle 0 (some true)]) :=
  claim_C9 dbInit [Op.createRaffle 2, Op.createRaffle 3, Op.updateRaffle 0 (some true)]
    (by decide) (by decide)

theorem claimTicket_nums (ts ts2 : List Ticket) (rid n uid now : Nat)
    (h : claimTicket ts rid n uid now = some ts2) :
    ts2.map (fun t => t.ticketNumber) = ts.map (fun t => t.ticketNumber) := by
  induction ts generalizing ts2 with
  | nil => simp [claimTicket] at h
  | cons t rest ih =>
    unfold claimTicket at h
    by_cases hc : (t.ticketNumber == n && t.status == TStatus.available && t.raffleId == rid) = true
    · rw [if_pos hc] at h
      obtain rfl := Option.some.inj h
      simp
    · rw [if_neg hc] at h
      rcases Option.map_eq_some'.mp h with ⟨ts3, h3, rfl⟩
      simp [ih ts3 h3]

theorem claimTicket_keep (ts ts2 : List Ticket) (rid n uid now : Nat)
    (h : claimTicket ts rid n uid now = some ts2) :
    ∀ t ∈ ts, t.status ≠ TStatus.available → t ∈ ts2 := by
  induction ts generalizing ts2 with
  | nil => simp [claimTicket] at h
  | cons t rest ih =>
    unfold claimTicket at h
    by_cases hc : (t.ticketNumber == n && t.status == TStatus.available && t.raffleId == rid) = true
    · rw [if_pos hc] at h
      obtain rfl := Option.some.inj h
      intro u hu hns
      rcases List.mem_cons.mp hu with h1 | h1
      · subst h1
        have hca : (u.ticketNumber = n ∧ u.status = TStatus.available) ∧ u.raffleId = rid := by
          simpa using hc
        exact absurd hca.1.2 hns
      · exact List.mem_cons_of_mem _ h1
    · rw [if_neg hc] at h
      rcases Option.map_eq_some'.mp h with ⟨ts3, h3, rfl⟩
      intro u hu hns
      rcases List.mem_cons.mp hu with h1 | h1
      · subst h1; exact List.mem_cons_self _ _
      · exact List.mem_cons_of_mem _ (ih ts3 h3 u h1 hns)

theorem reserveLoop_nums (nums : List Nat) (ts : List Ticket) (rid uid now : Nat) :
    (reserveLoop ts rid uid now nums).1.map (fun t => t.ticketNumber)
      = ts.map (fun t => t.ticketNumber) := by
  induction nums generalizing ts with
  | nil => rfl
  | cons m rest ih =>
    unfold reserveLoop
    cases hclaim : claimTicket ts rid m uid now with
    | none =>
      simp only []
      exact ih ts
    | some ts2 =>
      simp only []
      rw [ih ts2, claimTicket_nums ts ts2 rid m uid now hclaim]

theorem reserveLoop_keep (nums : List Nat) (ts : List Ticket) (rid uid now : Nat) :
    ∀ t ∈ ts, t.status ≠ TStatus.available → t ∈ (reserveLoop ts rid uid now nums).1 := by
  induction nums generalizing ts with
  | nil => intro t ht _; exact ht
  | cons m rest ih =>
    unfold reserveLoop
    cases hclaim : claimTicket ts rid m uid now with
    | none =>
      simp only []
      exact ih ts
    | some ts2 =>
      simp only []
      intro t ht hns
      exact ih ts2 t (claimTicket_keep ts ts2 rid m uid now hclaim t ht hns) hns

theorem createAndPay_tickets_shape (db : DB) (req : ReserveReq) (now : Nat) :
    (createAndPay db req now).1.tickets = db.tickets ∨
    ∃ rid, (createAndPay db req now).1.tickets
      = (reserveLoop db.tickets rid req.newUserId now req.numbers).1 := by
  unfold createAndPay
  split
  · left; rfl
  · split
    · left; rfl
    · rename_i raffle hfa
      split
      · rename_i ts unavailable heq
        split
        · right
          exact ⟨raffle.id, by rw [heq]⟩
        · left; rfl

theorem confirmPayment_tickets_shape (db : DB) (pid : Nat) :
    (confirmPayment db pid).1.tickets = db.tickets ∨
    ∃ sel : List Nat, (confirmPayment db pid).1.tickets
      = db.tickets.map (fun t =>
          if sel.contains t.ticketNumber && t.status == TStatus.reserved then
            { t with status := TStatus.sold } else t) := by
  unfold confirmPayment
  split
  · left; rfl
  · split
    · left; rfl
    · right; exact ⟨_, rfl⟩

theorem rejectPayment_tickets_shape (db : DB) (pid : Nat) :
    (rejectPayment db pid).1.tickets = db.tickets ∨
    ∃ sel : List Nat, (rejectPayment db pid).1.tickets
      = db.tickets.map (fun t =>
          if sel.contains t.ticketNumber && t.status == TStatus.reserved then
            { t with status := TStatus.available, userId := none, reservedAt := none } else t) := by
  unfold rejectPayment
  split
  · left; rfl
  · split
    · left; rfl
    · right; exact ⟨_, rfl⟩

theorem sweep_tickets_shape (db : DB) (now : Nat) :
    (sweep db now).tickets = db.tickets ∨
    (sweep db now).tickets = db.tickets.map (fun t =>
        if ((db.tickets.filter (fun u => isExpired u now)).map
              (fun u => u.ticketNumber)).contains t.ticketNumber then
          { t with status := TStatus.available, reservedAt := none, userId := none }
        else t) := by
  cases hc : (db.tickets.filter (fun t => isExpired t now)).isEmpty with
  | true => left; simp [sweep, hc]
  | false => right; simp [sweep, hc]

theorem engine_tickets_nums (db : DB) (op : Op) (hop : op.isEngine = true) :
    (applyOp db op).tickets.map (fun t => t.ticketNumber)
      = db.tickets.map (fun t => t.ticketNumber) := by
  cases op with
  | reserve req now =>
    rcases createAndPay_tickets_shape db req now with h | ⟨rid, h⟩
    · show (createAndPay db req now).1.tickets.map _ = _
      rw [h]
    · show (createAndPay db req now).1.tickets.map _ = _
      rw [h, reserveLoop_nums]
  | confirm pid =>
    rcases confirmPayment_tickets_shape db pid with h | ⟨sel, h⟩
    · show (confirmPayment db pid).1.tickets.map _ = _
      rw [h]
    · show (confirmPayment db pid).1.tickets.map _ = _
      rw [h, List.map_map]
      refine List.map_congr_left (fun t ht => ?_)
      simp only [Function.comp]
      split <;> rfl
  | reject pid =>
    rcases rejectPayment_tickets_shape db pid with h | ⟨sel, h⟩
    · show (rejectPayment db pid).1.tickets.map _ = _
      rw [h]
    · show (rejectPayment db pid).1.tickets.map _ = _
      rw [h, List.map_map]
      refine List.map_congr_left (fun t ht => ?_)
      simp only [Function.comp]
      split <;> rfl
  | sweepAt now =>
    rcases sweep_tickets_shape db now with h | h
    · show (sweep db now).tickets.map _ = _
      rw [h]
    · show (sweep db now).tickets.map _ = _
      rw [h, List.map_map]
      refine List.map_congr_left (fun t ht => ?_)
      simp only [Function.comp]
      split <;> rfl
  | createRaffle total => simp [Op.isEngine] at hop
  | updateRaffle rid upd => simp [Op.isEngine] at hop
  | deleteRaffle rid => simp [Op.isEngine] at hop

theorem engine_uniq (db : DB) (op : Op) (hop : op.isEngine = true)
    (hu : UniqNums db) : UniqNums (applyOp db op) := by
  unfold UniqNums at hu ⊢
  rw [engine_tickets_nums db op hop]
  exact hu

theorem sold_absorb (db : DB) (op : Op) (rid n : Nat) (hop : op.isEngine = true)
    (hu : UniqNums db) (hs : isSoldAt db rid n = true) :
    isSoldAt (applyOp db op) rid n = true := by
  unfold isSoldAt at hs ⊢
  obtain ⟨t, ht, hpt⟩ := List.any_eq_true.mp hs
  have hpt2 : (t.raffleId = rid ∧ t.ticketNumber = n) ∧ t.status = TStatus.sold := by
    simpa using hpt
  have hts : t.status = TStatus.sold := hpt2.2
  refine List.any_eq_true.mpr ?_
  cases op with
  | reserve req now =>
    rcases createAndPay_tickets_shape db req now with h | ⟨rid2, h⟩
    · exact ⟨t, by rw [show (applyOp db (Op.reserve req now)).tickets
          = (createAndPay db req now).1.tickets from rfl, h]; exact ht, hpt⟩
    · refine ⟨t, ?_, hpt⟩
      rw [show (applyOp db (Op.reserve req now)).tickets
          = (createAndPay db req now).1.tickets from rfl, h]
      exact reserveLoop_keep req.numbers db.tickets rid2 req.newUserId now t ht
        (by rw [hts]; intro hc; cases hc)
  | confirm pid =>
    rcases confirmPayment_tickets_shape db pid with h | ⟨sel, h⟩
    · exact ⟨t, by rw [show (applyOp db (Op.confirm pid)).tickets
          = (confirmPayment db pid).1.tickets from rfl, h]; exact ht, hpt⟩
    · refine ⟨t, ?_, hpt⟩
      rw [show (applyOp db (Op.confirm pid)).tickets
          = (confirmPayment db pid).1.tickets from rfl, h]
      refine List.mem_map.mpr ⟨t, ht, ?_⟩
      rw [if_neg (by simp [hts])]
  | reject pid =>
    rcases rejectPayment_tickets_shape db pid with h | ⟨sel, h⟩
    · exact ⟨t, by rw [show (applyOp db (Op.reject pid)).tickets
          = (rejectPayment db pid).1.tickets from rfl, h]; exact ht, hpt⟩
    · refine ⟨t, ?_, hpt⟩
      rw [show (applyOp db (Op.reject pid)).tickets
          = (rejectPayment db pid).1.tickets from rfl, h]
      refine List.mem_map.mpr ⟨t, ht, ?_⟩
      rw [if_neg (by simp [hts])]
  | sweepAt now =>
    rcases sweep_tickets_shape db now with h | h
    · exact ⟨t, by rw [show (applyOp db (Op.sweepAt now)).tickets
          = (sweep db now).tickets from rfl, h]; exact ht, hpt⟩
    · refine ⟨t, ?_, hpt⟩
      rw [show (applyOp db (Op.sweepAt now)).tickets = (sweep db now).tickets from rfl, h]
      refine List.mem_map.mpr ⟨t, ht, ?_⟩
      have hnotin : (((db.tickets.filter (fun u => isExpired u now)).map
          (fun u => u.ticketNumber)).contains t.ticketNumber) = false := by
        cases hb : ((db.tickets.filter (fun u => isExpired u now)).map
            (fun u => u.ticketNumber)).contains t.ticketNumber with
        | false => rfl
        | true =>
          obtain ⟨t2, ht2f, heq⟩ := List.mem_map.mp (List.mem_of_elem_eq_true hb)
          obtain ⟨ht2, hexp⟩ := List.mem_filter.mp ht2f
          have ht2res : t2.status = TStatus.reserved := by
            unfold isExpired at hexp
            cases hss : (t2.status == TStatus.reserved) with
            | true => simpa using hss
            | false => rw [hss] at hexp; simp at hexp
          have : t2 = t :=
            List.inj_on_of_nodup_map hu ht2 ht heq
          rw [this, hts] at ht2res
          cases ht2res
      rw [if_neg (by simpa using hnotin)]
  | createRaffle total => simp [Op.isEngine] at hop
  | updateRaffle rid2 upd => simp [Op.isEngine] at hop
  | deleteRaffle rid2 => simp [Op.isEngine] at hop

theorem sellEvents_zero_of_sold (ops : List Op) (db : DB) (rid n : Nat)
    (hall : ops.all Op.isEngine = true) (hu : UniqNums db)
    (hs : isSoldAt db rid n = true) :
    sellEvents db ops rid n = 0 := by
  induction ops generalizing db with
  | nil => rfl
  | cons op rest ih =>
    have hpair : op.isEngine = true ∧ rest.all Op.isEngine = true := by simpa using hall
    have hs2 := sold_absorb db op rid n hpair.1 hu hs
    have hu2 := engine_uniq db op hpair.1 hu
    simp [sellEvents, hs, ih (applyOp db op) hpair.2 hu2 hs2]

/-- C1 (amended): in any state whose ticket numbers are pairwise distinct
across the whole tickets collection (every single-raffle state in
particular), along any sequence of reserve / confirm / reject / sweep
steps a given ticket transitions into sold at most once: sold is then an
absorbing status, because every ticket mutation is guarded away from sold
rows once numbers cannot collide.  With several raffles the guard fails —
see the counterexample. -/
theorem claim_C1_amended (db : DB) (ops : List Op) (rid n : Nat)
    (hall : ops.all Op.isEngine = true) (hu : UniqNums db) :
    sellEvents db ops rid n ≤ 1 := by
  induction ops generalizing db with
  | nil => simp [sellEvents]
  | cons op rest ih =>
    have hpair : op.isEngine = true ∧ rest.all Op.isEngine = true := by simpa using hall
    have hu2 := engine_uniq db op hpair.1 hu
    by_cases hind : (!isSoldAt db rid n && isSoldAt (applyOp db op) rid n) = true
    · have hmid : isSoldAt db rid n = false ∧ isSoldAt (applyOp db op) rid n = true := by
        simpa using hind
      simp [sellEvents, hind,
        sellEvents_zero_of_sold rest (applyOp db op) rid n hpair.2 hu2 hmid.2]
    · simp only [sellEvents, if_neg hind]
      simpa using ih (applyOp db op) hpair.2 hu2

/-- C1 counterexample: a concrete run of the system from the empty
database in which ticket 1 of raffle 0 is sold twice, by two different
payments.  After the first sale, a second raffle's own ticket 1 expires;
the sweep's number-only `updateMany` resets the sold ticket of raffle 0
to available, and it is then reserved and sold again. -/
theorem claim_C1_counterexample :
    sellEvents dbInit opsDoubleSell 0 1 = 2 := by
  decide

theorem claim_C1_witness :
    sellEvents dbTwoTickets [Op.sweepAt (ttlMs + 1), Op.confirm 1] 0 1 ≤ 1 :=
  claim_C1_amended dbTwoTickets [Op.sweepAt (ttlMs + 1), Op.confirm 1] 0 1
    (by decide) (by decide)
